import Mathlib

/-!
Shallow embedding of the `gormx` Go package.

The repository is a thin convenience layer over gorm.  The pieces relevant
here are:

* `SortPrep` / `SortExec` (sort.go): build a `? in (?)` filter expression and
  a `CASE` value expression from a mapping of keys to new sort values;
* `SingleWrap` (single.go): a memoizing, deduplicating named-instance cache;
* `Open` / `RegisterDriver` (dialect.go): the driver registry;
* `Default` (gormx.go): the default database handle, never nil;
* `column` (utils.go): the column-reference parser.

Go maps are embedded as association lists (`List (K × S)`); the unspecified
iteration order of a Go map is represented by quantifying over permutations
of the list.  Go `nil` pointers are embedded as `Option`; Go `(T, error)`
returns as `Except String T`.  Go string indices are rune (character) based
here; they coincide with Go's byte indices on ASCII input, which is the only
input the sort/column code is used with.
-/

namespace Gormx

/-- `clause.PrimaryKey` from gorm: the marker string gorm later resolves to
the model's primary-key column. -/
def PrimaryKey : String := "~~~py~~~"

/-- `clause.CurrentTable` from gorm: the marker string for the current table. -/
def CurrentTable : String := "~~~ct~~~"

/-- `clause.Column` from gorm: a quoted column reference. -/
structure Column where
  Table : String := ""
  Name : String := ""
  Alias : String := ""
  Raw : Bool := false
deriving DecidableEq, Repr

/-- An argument bound to a `?` placeholder of a generated SQL fragment.  In
the Go source the argument slice has type `[]any`; the values that actually
occur in this package are columns, keys, sort values and slices of keys. -/
inductive SqlArg (K S : Type) where
  | col (c : Column)
  | key (k : K)
  | val (s : S)
  | keys (ks : List K)
deriving DecidableEq, Repr

/-- `clause.Expr` from gorm: a SQL fragment with `?` placeholders plus the
argument list bound to those placeholders (`gorm.Expr(sql, vars...)`). -/
structure Expr (K S : Type) where
  SQL : String
  Vars : List (SqlArg K S)
deriving DecidableEq, Repr

/-- Go map indexing `values[key]`: the value stored under `key`.  The Go
code only indexes with keys that are present, so the default `d` is never
relevant there. -/
def lookupD {K S : Type} [DecidableEq K] (values : List (K × S)) (k : K) (d : S) : S :=
  match values with
  | [] => d
  | (k₀, v₀) :: rest => if k = k₀ then v₀ else lookupD rest k d

/-- `SortPrep` from sort.go: collect the map's keys, sort them
(`slices.Sort`), then build the `? in (?)` where-expression over the sorted
keys and the `(CASE ? WHEN ? THEN ? ... ELSE ? END)` value-expression whose
arguments are the key column, the key/new-value pairs in sorted key order,
and finally the original sort column. -/
def SortPrep {K S : Type} [LinearOrder K] [Inhabited S]
    (values : List (K × S)) (kc sc : Column) : Expr K S × Expr K S :=
  let keys := (values.map Prod.fst).insertionSort (· ≤ ·)
  let caseSql := keys.foldl (fun acc _ => acc ++ " WHEN ? THEN ?") "(CASE ?"
  let caseSql := caseSql ++ " ELSE ? END)"
  let caseArg : List (SqlArg K S) :=
    SqlArg.col kc ::
      ((keys.map (fun k => [SqlArg.key k, SqlArg.val (lookupD values k default)])).flatten
        ++ [SqlArg.col sc])
  let whereExpr : Expr K S := ⟨"? in (?)", [SqlArg.col kc, SqlArg.keys keys]⟩
  let valueExpr : Expr K S := ⟨caseSql, caseArg⟩
  (whereExpr, valueExpr)

/-- `" WHEN ? THEN ?"` repeated `n` times. -/
def whenRep : Nat → String
  | 0 => ""
  | n + 1 => " WHEN ? THEN ?" ++ whenRep n

/-- The SQL text `SortPrep` emits for a mapping with `n` entries: a single
CASE expression with `n` `WHEN ? THEN ?` branches and one ELSE branch. -/
def caseTemplate (n : Nat) : String :=
  "(CASE ?" ++ whenRep n ++ " ELSE ? END)"

/-- Modelled from the spec: the meaning of the generated filter.  A fragment
of the exact shape `? in (?)` with arguments `(column, list)` selects a row
precisely when the row's key-column value is a member of the list; any other
shape selects nothing here. -/
def evalInFilter {K S : Type} [DecidableEq K] (e : Expr K S) (x : K) : Bool :=
  if e.SQL = "? in (?)" then
    match e.Vars with
    | [SqlArg.col _, SqlArg.keys ks] => decide (x ∈ ks)
    | _ => false
  else false

/-- The `WHEN k THEN s` branches encoded in a CASE argument list: maximal
leading run of `key`/`val` pairs. -/
def caseBranches {K S : Type} : List (SqlArg K S) → List (K × S)
  | SqlArg.key k :: SqlArg.val s :: rest => (k, s) :: caseBranches rest
  | _ => []

/-- Number of positions at which the substring `"WHEN"` occurs in a list of
characters. -/
def whenCountAux : List Char → Nat
  | [] => 0
  | c :: t => (if ("WHEN".toList).isPrefixOf (c :: t) then 1 else 0) + whenCountAux t

/-- Number of `WHEN` branches in a piece of generated SQL text (number of
occurrences of the substring `"WHEN"`). -/
def whenCount (s : String) : Nat := whenCountAux s.toList

/-- Modelled from the spec: SQL grammars (SQLite, MySQL, PostgreSQL alike)
require at least one `WHEN ... THEN ...` branch inside a CASE expression, so
a generated simple CASE expression is syntactically valid only when it has a
positive number of `WHEN` branches. -/
def caseSqlValid (sql : String) : Prop := 1 ≤ whenCount sql

instance (sql : String) : Decidable (caseSqlValid sql) := by
  unfold caseSqlValid; infer_instance

/-! ### utils.go: the column-reference parser -/

/-- `nameClean` from utils.go: characters trimmed from the ends of a parsed
column part: double quote, backtick, single quote, square brackets and
whitespace.  The quote characters are written by code point.  Whitespace here
covers the Latin-1 range of Go's `unicode.IsSpace`; the wider Unicode space
classes are not exercised by this package. -/
def nameClean (r : Char) : Bool :=
  r = Char.ofNat 34 || r = Char.ofNat 96 || r = Char.ofNat 39 ||
    r = Char.ofNat 91 || r = Char.ofNat 93 ||
    r.toNat = 9 || r.toNat = 10 || r.toNat = 11 || r.toNat = 12 ||
    r.toNat = 13 || r.toNat = 32 || r.toNat = 133 || r.toNat = 160

/-- Go `strings.Index`, character-based: the first index at which `sub`
occurs in `hay` starting from index `i`, or `-1` when it does not occur. -/
def subIndexAux (hay sub : List Char) (i : Nat) : Int :=
  if sub.isPrefixOf hay then (i : Int)
  else
    match hay with
    | [] => -1
    | _ :: t => subIndexAux t sub (i + 1)

/-- Go `strings.Index sub hay` (character-based). -/
def subIndex (hay sub : List Char) : Int := subIndexAux hay sub 0

/-- Go `strings.Cut(s, sep)` for a one-character separator: split around the
first occurrence. -/
def cutChar (s : List Char) (sep : Char) : Option (List Char × List Char) :=
  match s with
  | [] => none
  | c :: t =>
    if c = sep then some ([], t)
    else
      match cutChar t sep with
      | some (before, after) => some (c :: before, after)
      | none => none

/-- Go `strings.TrimFunc(s, nameClean)`: drop the characters satisfying
`nameClean` from both ends. -/
def trimClean (s : String) : String :=
  String.mk (((s.toList.dropWhile nameClean).reverse.dropWhile nameClean).reverse)

/-- `column` from utils.go: parse a column reference string into a
`clause.Column`.  Recognises a trailing " as alias", a "table.name" split on
the first dot (of the original string, as in the source), trims quoting
characters, and defaults the table to `clause.CurrentTable`. -/
def column (columnArg : String) : Column :=
  let cs := columnArg.toList
  let col₀ : Column := { Name := columnArg }
  let col₁ :=
    let i := subIndex (cs.map Char.toLower) (" as ".toList)
    if 0 < i then
      { col₀ with
          Alias := String.mk (cs.drop (i.toNat + 4)),
          Name := String.mk (cs.take i.toNat) }
    else col₀
  let col₂ :=
    match cutChar cs (Char.ofNat 46) with
    | some (t, n) => { col₁ with Table := String.mk t, Name := String.mk n }
    | none => col₁
  let col₃ :=
    { col₂ with
        Name := trimClean col₂.Name,
        Table := trimClean col₂.Table,
        Alias := trimClean col₂.Alias }
  if col₃.Table = "" then { col₃ with Table := CurrentTable } else col₃

/-! ### sort.go: `SortExec`

`SortExec tx values keyColumn sortColumn` parses the two column names, fills
in the defaults (primary key — or `"id"` when the statement carries no
model — for the key column, `"sort"` for the sort column), calls `SortPrep`
and runs `tx.Where(where).UpdateColumn(sc.Name, value)`.  The database call
itself is external; the embedding returns everything `SortExec` hands to it.
`modelPresent` abstracts `tx.Statement.Model != nil` (with `tx = nil` the Go
code substitutes `Default()`, whose statement has no model). -/

/-- The data `SortExec` passes to the underlying database call. -/
structure SortExecOut (K S : Type) where
  kc : Column
  sc : Column
  whereExpr : Expr K S
  valueExpr : Expr K S
  updatedColumn : String
deriving DecidableEq, Repr

/-- `SortExec` from sort.go (see section comment above). -/
def SortExec {K S : Type} [LinearOrder K] [Inhabited S] (modelPresent : Bool)
    (values : List (K × S)) (keyColumn sortColumn : String) : SortExecOut K S :=
  let kc := column keyColumn
  let sc := column sortColumn
  let kc :=
    if kc.Name = "" then
      { kc with Name := if modelPresent then PrimaryKey else "id" }
    else kc
  let sc := if sc.Name = "" then { sc with Name := "sort" } else sc
  let pr := SortPrep values kc sc
  ⟨kc, sc, pr.1, pr.2, sc.Name⟩

/-! ### single.go: the named-instance cache

`SingleWrap get` returns a closure over a cache map `ins`.  Its sequential
behaviour (one call at a time; the single-flight group then simply runs the
callback) is embedded as an explicit state-passing step function: the cache
is the state, and the step reports the result, the new cache, and whether
the wrapped constructor `get` was invoked during the call. -/

/-- The `DEFAULT` sentinel name from single.go. -/
def DEFAULT : String := "DEFAULT"

/-- Name normalisation at the top of the closure returned by `SingleWrap`:
the empty name becomes `DEFAULT`. -/
def normName (name : String) : String := if name = "" then DEFAULT else name

/-- Cache lookup `ins[name]` on the association-list embedding of the map. -/
def lookupStr {T : Type} (ins : List (String × T)) (name : String) : Option T :=
  match ins with
  | [] => none
  | (k, v) :: rest => if k = name then some v else lookupStr rest name

/-- Observable outcome of one call to the closure returned by `SingleWrap`:
the returned value or error, the cache state after the call, and whether the
wrapped constructor was invoked. -/
structure CallOut (T : Type) where
  result : Except String T
  cache : List (String × T)
  invoked : Bool
deriving Repr

/-- One call to the closure returned by `SingleWrap get` (single.go),
starting from cache state `ins`: normalise the name, return a cached value
when present; otherwise invoke `get` — on error return it without touching
the cache, on success store the value under the name and return it. -/
def singleCall {T : Type} (get : String → Except String T)
    (ins : List (String × T)) (name : String) : CallOut T :=
  match lookupStr ins (normName name) with
  | some instance₀ => ⟨Except.ok instance₀, ins, false⟩
  | none =>
    match get (normName name) with
    | Except.error e => ⟨Except.error e, ins, true⟩
    | Except.ok v => ⟨Except.ok v, (normName name, v) :: ins, true⟩

/-- A sequence of calls to the closure, threading the cache state. -/
def runCalls {T : Type} (get : String → Except String T)
    (ins : List (String × T)) : List String → List (String × T)
  | [] => ins
  | n :: rest => runCalls get (singleCall get ins n).cache rest

/-! ### dialect.go: the driver registry -/

/-- The two package-level registries of dialect.go: `drivers` maps a driver
name to its dialector-opening function, `driverAlias` maps an alias to a
driver name.  Go maps are embedded as their lookup functions; the opener
type `D` stays abstract (`func(string) gorm.Dialector` is external). -/
structure DriverRegistry (D : Type) where
  drivers : String → Option D
  driverAlias : String → Option String

/-- `RegisterDriver` from dialect.go: bind `name` to `dialect` and each
alias to `name`. -/
def RegisterDriver {D : Type} (reg : DriverRegistry D) (name : String)
    (dialect : D) (aliases : List String) : DriverRegistry D :=
  { drivers := fun k => if k = name then some dialect else reg.drivers k,
    driverAlias := aliases.foldl
      (fun m a => fun k => if k = a then some name else m k) reg.driverAlias }

/-- `Open` from dialect.go, up to the driver-resolution step: look the
identifier up among the driver names, then — on a miss — through the alias
table; an identifier resolving to no registered opener yields the error
`"unknown driver: <identifier>"`.  The resolved opener is what the Go code
then applies to the DSN and hands to `gorm.Open`. -/
def Open {D : Type} (reg : DriverRegistry D) (driver : String) : Except String D :=
  match reg.drivers driver with
  | some dialect => Except.ok dialect
  | none =>
    match reg.driverAlias driver with
    | some name =>
      match reg.drivers name with
      | some dialect => Except.ok dialect
      | none => Except.error ("unknown driver: " ++ driver)
    | none => Except.error ("unknown driver: " ++ driver)

/-! ### gormx.go: `Default` -/

/-- `gorm.Config`; only its zero value `gorm.Config{}` occurs here. -/
structure GormConfig where
  SkipDefaultTransaction : Bool := false
deriving DecidableEq, Repr

/-- `gorm.Statement`; `Default` sets its `DB` field to the handle being
returned, recorded here as a flag. -/
structure GormStatement where
  DBIsSelf : Bool := false
deriving DecidableEq, Repr

/-- `*gorm.DB`: the fields `Default` touches.  Pointer-valued fields are
`Option`s; `none` is Go `nil`. -/
structure GormDB where
  Error : Option String := none
  Config : Option GormConfig := none
  Statement : Option GormStatement := none
deriving DecidableEq, Repr

/-- `Default` from gormx.go, as a function of the outcome of `fetch ""` (the
cached `SingleWrap Create` call; a successful fetch carries the handle gorm
constructed).  On error it builds a fresh handle holding the error, a fresh
`gorm.Config{}` and an initialised `Statement` pointing back at the handle;
on success it returns the fetched handle unchanged.  In both branches a
handle is returned: the error is never propagated as a second return value. -/
def Default (fetchRes : Except String GormDB) : GormDB :=
  match fetchRes with
  | Except.ok d => d
  | Except.error err =>
    let d : GormDB := { Error := some err, Config := some {} }
    { d with Statement := some { DBIsSelf := true } }

/-- A concrete registry built with `RegisterDriver`: the opener is
represented by a number; `"sqlite"` is registered with alias `"sqlite3"`. -/
def regEx : DriverRegistry Nat :=
  RegisterDriver { drivers := fun _ => none, driverAlias := fun _ => none }
    "sqlite" 1 ["sqlite3"]

/-! ## Theorems -/

/-- C9: calling the closure returned by `SingleWrap get` with the empty
string is the very same call as with the sentinel name `"DEFAULT"`: the name
is normalised before the cache lookup, so result, cache state and
constructor invocation coincide — both names share one cache entry and one
constructor invocation. -/
theorem singleCall_empty_eq_default {T : Type} (get : String → Except String T)
    (ins : List (String × T)) :
    singleCall get ins "" = singleCall get ins DEFAULT := rfl

/-- C5: when the wrapped constructor fails for a name not in the cache, the
call returns exactly that error, leaves the cache unchanged, and has invoked
the constructor; a subsequent call with the same name invokes the
constructor again. -/
theorem singleCall_error_not_cached {T : Type} (get : String → Except String T)
    (ins : List (String × T)) (name : String) (e : String)
    (hmiss : lookupStr ins (normName name) = none)
    (herr : get (normName name) = Except.error e) :
    singleCall get ins name = ⟨Except.error e, ins, true⟩ ∧
    (singleCall get (singleCall get ins name).cache name).invoked = true := by
  have h1 : singleCall get ins name = ⟨Except.error e, ins, true⟩ := by
    simp only [singleCall, hmiss, herr]
  refine ⟨h1, ?_⟩
  rw [h1]
  simp only [singleCall, hmiss, herr]

/-- Witness for C5 at a concrete input: a constructor that always fails,
called twice with the name `"a"` on the empty cache. -/
theorem singleCall_error_not_cached_witness :
    lookupStr ([] : List (String × Nat)) (normName "a") = none ∧
    ((fun _ => Except.error "boom" : String → Except String Nat) (normName "a") =
      Except.error "boom") ∧
    (singleCall (fun _ => Except.error "boom") ([] : List (String × Nat)) "a" =
        ⟨Except.error "boom", [], true⟩ ∧
      (singleCall (fun _ => Except.error "boom")
        (singleCall (fun _ => Except.error "boom") ([] : List (String × Nat)) "a").cache
        "a").invoked = true) :=
  ⟨rfl, rfl, singleCall_error_not_cached (fun _ => Except.error "boom") [] "a" "boom" rfl rfl⟩

/-- C10: `Default` always returns a handle.  When the underlying fetch
fails, the returned handle carries the fetch error in its `Error` field and
has a non-nil `Config` and a non-nil, initialised `Statement`; when the
fetch succeeds, the fetched handle is returned unchanged.  In neither case
is the error propagated as a second return value. -/
theorem Default_never_nil (fetchRes : Except String GormDB) :
    (∀ e, fetchRes = Except.error e →
      (Default fetchRes).Error = some e ∧
      (Default fetchRes).Config.isSome = true ∧
      (Default fetchRes).Statement.isSome = true) ∧
    (∀ d, fetchRes = Except.ok d → Default fetchRes = d) := by
  constructor
  · rintro e rfl
    exact ⟨rfl, rfl, rfl⟩
  · rintro d rfl
    rfl

/-- Witness for C10 at a concrete input: a failed fetch. -/
theorem Default_never_nil_witness :
    (Default (Except.error "no driver")).Error = some "no driver" ∧
    (Default (Except.error "no driver")).Config.isSome = true ∧
    (Default (Except.error "no driver")).Statement.isSome = true :=
  (Default_never_nil (Except.error "no driver")).1 "no driver" rfl

/-- C8: `Open` on an identifier registered neither as a driver name nor as
an alias resolving to a registered driver name fails with the error
`"unknown driver: <identifier>"`, which names the identifier; a directly
registered identifier resolves to its registered opener, and an alias of a
registered name resolves to that name's opener. -/
theorem Open_driver_resolution {D : Type} (reg : DriverRegistry D) (driver : String) :
    (reg.drivers driver = none →
      (∀ n, reg.driverAlias driver = some n → reg.drivers n = none) →
      Open reg driver = Except.error ("unknown driver: " ++ driver)) ∧
    (∀ d, reg.drivers driver = some d → Open reg driver = Except.ok d) ∧
    (∀ n d, reg.drivers driver = none → reg.driverAlias driver = some n →
      reg.drivers n = some d → Open reg driver = Except.ok d) := by
  refine ⟨?_, ?_, ?_⟩
  · intro h1 h2
    unfold Open
    rw [h1]
    cases halias : reg.driverAlias driver with
    | none => rfl
    | some n =>
      dsimp only
      rw [h2 n halias]
  · intro d hd
    unfold Open
    rw [hd]
  · intro n d h1 halias hn
    unfold Open
    rw [h1, halias]
    dsimp only
    rw [hn]

/-- Witness for C8 at concrete inputs: an unknown identifier errors naming
it, the registered name and its alias both resolve to the opener. -/
theorem Open_driver_resolution_witness :
    Open regEx "mysql" = Except.error ("unknown driver: " ++ "mysql") ∧
    Open regEx "sqlite" = Except.ok 1 ∧
    Open regEx "sqlite3" = Except.ok 1 :=
  ⟨(Open_driver_resolution regEx "mysql").1 rfl
      (fun _ h => Option.noConfusion h),
    (Open_driver_resolution regEx "sqlite").2.1 1 rfl,
    (Open_driver_resolution regEx "sqlite3").2.2 "sqlite" 1 rfl rfl rfl⟩

/-- C7 counterexample: calling `SortExec` with an empty key column while the
statement carries no model (for instance with the default handle and no
`Model` call) yields the literal column name `"id"`, not gorm's primary-key
reference — so the key column does not default to the primary-key column on
every call. -/
theorem sortExec_default_counterexample :
    (SortExec (K := Nat) (S := Nat) false [] "" "").kc.Name = "id" ∧
    ¬ (SortExec (K := Nat) (S := Nat) false [] "" "").kc.Name = PrimaryKey := by
  exact ⟨rfl, by decide⟩

/-- C7 (amended): with an empty `keyColumn`, `SortExec` uses gorm's
primary-key reference when the statement has a model and the literal column
`"id"` otherwise; with an empty `sortColumn` it uses (and updates) a column
literally named `"sort"`. -/
theorem sortExec_column_defaults (modelPresent : Bool) (values : List (Nat × Nat)) :
    (SortExec modelPresent values "" "").kc.Name =
      (if modelPresent then PrimaryKey else "id") ∧
    (SortExec modelPresent values "" "").sc.Name = "sort" ∧
    (SortExec modelPresent values "" "").updatedColumn = "sort" := by
  cases modelPresent <;> exact ⟨rfl, rfl, rfl⟩

/-- C3 at the failing input (the empty mapping): the generated filter's key
list is empty so the filter matches no row, but the value expression's SQL
text is `"(CASE ? ELSE ? END)"` — a CASE expression with zero `WHEN`
branches, which the SQL grammar rejects, so executing the batch update is a
syntax error rather than an error-free no-op. -/
theorem sortPrep_empty_malformed_case :
    (SortExec (K := Nat) (S := Nat) false [] "" "").whereExpr.Vars =
      [SqlArg.col (SortExec (K := Nat) (S := Nat) false [] "" "").kc,
        SqlArg.keys []] ∧
    (∀ x : Nat, evalInFilter (SortExec (K := Nat) (S := Nat) false [] "" "").whereExpr x
      = false) ∧
    (SortExec (K := Nat) (S := Nat) false [] "" "").valueExpr.SQL = "(CASE ? ELSE ? END)" ∧
    whenCount (SortExec (K := Nat) (S := Nat) false [] "" "").valueExpr.SQL = 0 ∧
    ¬ caseSqlValid (SortExec (K := Nat) (S := Nat) false [] "" "").valueExpr.SQL := by
  refine ⟨rfl, ?_, rfl, by decide, by decide⟩
  intro x
  simp [SortExec, SortPrep, evalInFilter]

/-- A call never removes or replaces an existing cache entry. -/
theorem lookupStr_singleCall_preserve {T : Type} (get : String → Except String T)
    (ins : List (String × T)) (n k : String) (v : T)
    (h : lookupStr ins k = some v) :
    lookupStr (singleCall get ins n).cache k = some v := by
  unfold singleCall
  cases hl : lookupStr ins (normName n) with
  | some w => exact h
  | none =>
    cases hg : get (normName n) with
    | error e => exact h
    | ok w =>
      have hne : ¬ normName n = k := by
        intro he
        rw [he, h] at hl
        exact Option.noConfusion hl
      simpa [lookupStr, hne] using h

/-- A sequence of calls never removes or replaces an existing cache entry. -/
theorem lookupStr_runCalls_preserve {T : Type} (get : String → Except String T)
    (ins : List (String × T)) (names : List String) (k : String) (v : T)
    (h : lookupStr ins k = some v) :
    lookupStr (runCalls get ins names) k = some v := by
  induction names generalizing ins with
  | nil => exact h
  | cons n rest ih =>
    exact ih _ (lookupStr_singleCall_preserve get ins n k v h)

/-- After a call that returned `ok v`, the cache holds `v` under the
normalised name. -/
theorem lookupStr_singleCall_ok {T : Type} (get : String → Except String T)
    (ins : List (String × T)) (name : String) (v : T)
    (h : (singleCall get ins name).result = Except.ok v) :
    lookupStr (singleCall get ins name).cache (normName name) = some v := by
  unfold singleCall at h ⊢
  cases hl : lookupStr ins (normName name) with
  | some w =>
    rw [hl] at h
    dsimp only at h ⊢
    rw [hl]
    exact congrArg some (Except.ok.inj h)
  | none =>
    rw [hl] at h
    cases hg : get (normName name) with
    | error e =>
      rw [hg] at h
      dsimp only at h
      simp at h
    | ok w =>
      rw [hg] at h
      dsimp only at h ⊢
      simp [lookupStr, Except.ok.inj h]

/-- A call whose normalised name is cached returns the cached value without
invoking the constructor and leaves the cache unchanged. -/
theorem singleCall_hit {T : Type} (get : String → Except String T)
    (ins : List (String × T)) (name : String) (v : T)
    (h : lookupStr ins (normName name) = some v) :
    singleCall get ins name = ⟨Except.ok v, ins, false⟩ := by
  simp only [singleCall, h]

/-- C4: once a call has succeeded for a name, every later call with the same
name — whatever calls for other names happen in between — returns the stored
value with no error, does not invoke the constructor again, and leaves the
cache exactly as it was: the entry is never invalidated or replaced. -/
theorem singleCall_cached_forever {T : Type} (get : String → Except String T)
    (ins : List (String × T)) (name : String) (v : T) (names : List String)
    (h : (singleCall get ins name).result = Except.ok v) :
    singleCall get (runCalls get (singleCall get ins name).cache names) name =
      ⟨Except.ok v, runCalls get (singleCall get ins name).cache names, false⟩ :=
  singleCall_hit get _ name v
    (lookupStr_runCalls_preserve get _ names (normName name) v
      (lookupStr_singleCall_ok get ins name v h))

/-- Witness for C4 at a concrete input: construct `"a"` once, run two other
calls, then call `"a"` again. -/
theorem singleCall_cached_forever_witness :
    ((singleCall (fun _ => Except.ok 7) ([] : List (String × Nat)) "a").result =
      Except.ok 7) ∧
    singleCall (fun _ => Except.ok 7)
        (runCalls (fun _ => Except.ok 7)
          (singleCall (fun _ => Except.ok 7) ([] : List (String × Nat)) "a").cache
          ["b", ""]) "a" =
      ⟨Except.ok 7,
        runCalls (fun _ => Except.ok 7)
          (singleCall (fun _ => Except.ok 7) ([] : List (String × Nat)) "a").cache
          ["b", ""], false⟩ :=
  ⟨rfl, singleCall_cached_forever (fun _ => Except.ok 7) [] "a" 7 ["b", ""] rfl⟩

/-- Folding the `WHEN`-appending step of `SortPrep` over a list appends one
`" WHEN ? THEN ?"` segment per element. -/
theorem foldl_when {α : Type} (l : List α) (a : String) :
    l.foldl (fun acc _ => acc ++ " WHEN ? THEN ?") a = a ++ whenRep l.length := by
  induction l generalizing a with
  | nil => simp [whenRep]
  | cons x t ih =>
    simp only [List.foldl_cons, List.length_cons, whenRep, ih]
    rw [String.append_assoc]

/-- The branch pairs encoded in a CASE argument list built from a key list. -/
theorem caseBranches_pairs {K S : Type} (g : K → S) (ks : List K) (c : Column) :
    caseBranches ((ks.map (fun k => [SqlArg.key k, SqlArg.val (g k)])).flatten
      ++ [SqlArg.col c]) = ks.map (fun k => (k, g k)) := by
  induction ks with
  | nil => rfl
  | cons k t ih =>
    simp only [List.map_cons, List.flatten_cons, List.cons_append, List.nil_append]
    rw [caseBranches, ih]

/-- Pairing each key of an association list with its looked-up value
reproduces the association list, provided the keys are distinct. -/
theorem map_lookupD_self {K S : Type} [DecidableEq K] (values : List (K × S)) (d : S)
    (hnd : (values.map Prod.fst).Nodup) :
    (values.map Prod.fst).map (fun k => (k, lookupD values k d)) = values := by
  induction values with
  | nil => rfl
  | cons p t ih =>
    obtain ⟨k₀, v₀⟩ := p
    simp only [List.map_cons, List.nodup_cons] at hnd
    obtain ⟨hk, hnd'⟩ := hnd
    have h2 : (t.map Prod.fst).map (fun k => (k, lookupD ((k₀, v₀) :: t) k d)) =
        (t.map Prod.fst).map (fun k => (k, lookupD t k d)) := by
      apply List.map_congr_left
      intro k hkmem
      have hne : ¬ k = k₀ := fun he => hk (he ▸ hkmem)
      simp [lookupD, hne]
    simp only [List.map_cons, h2, ih hnd']
    simp [lookupD]

/-- Looking a key up in an association list with distinct keys is invariant
under permutation. -/
theorem lookupD_perm {K S : Type} [DecidableEq K] {v₁ v₂ : List (K × S)}
    (h : v₁.Perm v₂) :
    (v₁.map Prod.fst).Nodup → ∀ k d, lookupD v₁ k d = lookupD v₂ k d := by
  induction h with
  | nil => intro _ k d; rfl
  | cons p h ih =>
    intro hnd k d
    obtain ⟨k₀, v₀⟩ := p
    simp only [List.map_cons, List.nodup_cons] at hnd
    by_cases he : k = k₀
    · simp [lookupD, he]
    · simp [lookupD, he, ih hnd.2 k d]
  | swap x y l =>
    intro hnd k d
    obtain ⟨a, va⟩ := x
    obtain ⟨b, vb⟩ := y
    simp only [List.map_cons, List.nodup_cons, List.mem_cons] at hnd
    have hab : ¬ b = a := fun he => hnd.1 (Or.inl he)
    by_cases h1 : k = b <;> by_cases h2 : k = a <;> simp_all [lookupD]
  | trans h12 h23 ih12 ih23 =>
    intro hnd k d
    rw [ih12 hnd k d, ih23 ((h12.map Prod.fst).nodup hnd) k d]

/-- Two permutations of the same multiset of keys sort to the same list. -/
theorem sortedKeys_eq {K : Type} [LinearOrder K] {l₁ l₂ : List K} (h : l₁.Perm l₂) :
    l₁.insertionSort (· ≤ ·) = l₂.insertionSort (· ≤ ·) :=
  List.eq_of_perm_of_sorted
    ((List.perm_insertionSort _ l₁).trans (h.trans (List.perm_insertionSort _ l₂).symm))
    (List.sorted_insertionSort _ l₁) (List.sorted_insertionSort _ l₂)

/-- C6: `SortPrep` is deterministic in the mapping: two association lists
that present the same mapping in different orders (any permutation, distinct
keys) produce textually identical filter and value expressions, because the
keys are sorted by their natural order before the SQL text is built; the key
list embedded in the filter is indeed sorted. -/
theorem sortPrep_deterministic {K S : Type} [LinearOrder K] [Inhabited S]
    (v₁ v₂ : List (K × S)) (kc sc : Column)
    (hperm : v₁.Perm v₂) (hnd : (v₁.map Prod.fst).Nodup) :
    SortPrep v₁ kc sc = SortPrep v₂ kc sc ∧
    List.Sorted (· ≤ ·) ((v₁.map Prod.fst).insertionSort (· ≤ ·)) ∧
    (SortPrep v₁ kc sc).1.Vars =
      [SqlArg.col kc, SqlArg.keys ((v₁.map Prod.fst).insertionSort (· ≤ ·))] := by
  have hkeys : (v₁.map Prod.fst).insertionSort (· ≤ ·) =
      (v₂.map Prod.fst).insertionSort (· ≤ ·) :=
    sortedKeys_eq (hperm.map Prod.fst)
  have hlook : ∀ k d, lookupD v₁ k d = lookupD v₂ k d := lookupD_perm hperm hnd
  refine ⟨?_, List.sorted_insertionSort _ _, rfl⟩
  simp only [SortPrep]
  rw [hkeys]
  simp only [hlook]

/-- Witness for C6 at a concrete input: the mapping `{1 ↦ 20, 2 ↦ 10}`
presented in its two orders. -/
theorem sortPrep_deterministic_witness :
    ([((1 : Nat), (20 : Nat)), (2, 10)].Perm [(2, 10), (1, 20)] ∧
      ([((1 : Nat), (20 : Nat)), (2, 10)].map Prod.fst).Nodup) ∧
    SortPrep [((1 : Nat), (20 : Nat)), (2, 10)] { Name := "id" } { Name := "sort" } =
      SortPrep [(2, 10), (1, 20)] { Name := "id" } { Name := "sort" } :=
  ⟨⟨by decide, by decide⟩,
    (sortPrep_deterministic [(1, 20), (2, 10)] [(2, 10), (1, 20)]
      { Name := "id" } { Name := "sort" } (by decide) (by decide)).1⟩

/-- C1: for a mapping with distinct keys (and in particular any non-empty
one), `SortPrep` returns a filter that selects exactly the rows whose
key-column value is one of the mapping's keys, and a value expression that
is one CASE expression over the key column whose SQL text has one
`WHEN ? THEN ?` branch per mapping entry, whose branch arguments are exactly
the pairs `(K, values[K])` of the mapping, and whose final argument — the
ELSE branch — is the original sort column. -/
theorem sortPrep_spec {K S : Type} [LinearOrder K] [Inhabited S]
    (values : List (K × S)) (kc sc : Column)
    (_hne : values ≠ []) (hnd : (values.map Prod.fst).Nodup) :
    ((SortPrep values kc sc).1.SQL = "? in (?)" ∧
      ∀ x, evalInFilter (SortPrep values kc sc).1 x = true ↔ x ∈ values.map Prod.fst) ∧
    (SortPrep values kc sc).2.SQL = caseTemplate values.length ∧
    (SortPrep values kc sc).2.Vars.head? = some (SqlArg.col kc) ∧
    (SortPrep values kc sc).2.Vars.getLast? = some (SqlArg.col sc) ∧
    (caseBranches (SortPrep values kc sc).2.Vars.tail).Perm values := by
  refine ⟨⟨rfl, ?_⟩, ?_, rfl, ?_, ?_⟩
  · intro x
    simp [SortPrep, evalInFilter, List.mem_insertionSort]
  · have hlen : ((values.map Prod.fst).insertionSort (· ≤ ·)).length = values.length := by
      rw [List.length_insertionSort, List.length_map]
    simp only [SortPrep, caseTemplate, foldl_when, hlen]
  · simp only [SortPrep]
    rw [← List.cons_append, List.getLast?_concat]
  · simp only [SortPrep, List.tail_cons, caseBranches_pairs]
    exact ((List.perm_insertionSort _ _).map _).trans
      (by rw [map_lookupD_self values default hnd])

/-- Witness for C1 at a concrete input: the mapping `{1 ↦ 20, 2 ↦ 10}`. -/
theorem sortPrep_spec_witness :
    (([((1 : Nat), (20 : Nat)), (2, 10)] : List (Nat × Nat)) ≠ [] ∧
      ([((1 : Nat), (20 : Nat)), (2, 10)].map Prod.fst).Nodup) ∧
    ((SortPrep [((1 : Nat), (20 : Nat)), (2, 10)] { Name := "id" } { Name := "sort" }).2.SQL =
      caseTemplate 2 ∧
    (caseBranches (SortPrep [((1 : Nat), (20 : Nat)), (2, 10)] { Name := "id" }
      { Name := "sort" }).2.Vars.tail).Perm [(1, 20), (2, 10)]) :=
  ⟨⟨by decide, by decide⟩,
    (sortPrep_spec [(1, 20), (2, 10)] { Name := "id" } { Name := "sort" }
      (by decide) (by decide)).2.1,
    (sortPrep_spec [(1, 20), (2, 10)] { Name := "id" } { Name := "sort" }
      (by decide) (by decide)).2.2.2.2⟩

end Gormx
